import Mathlib

/-!
Shallow embedding of the authentication/verification subsystem of the
azure-accommodation-form repository:

* `MathCaptchaService` (azure-deployment-package/app/services/captcha.py):
  `generate_math_question` and `verify_math_answer`;
* the auth route handlers (python-app/app/api/routes/auth.py):
  `request_email_verification` and `verify_mfa_token` over the in-memory
  `verification_sessions` dictionary;
* `SessionService` (python-app/app/services/session.py):
  `create_session`, `get_session`, `invalidate_session`, `extend_session`
  over the in-memory `sessions` dictionary.

Timestamps are modelled as integers (seconds); each request handler receives
one `now` value standing for the `datetime.utcnow()` calls it makes.
Random generation (`random.randint`, `secrets.token_urlsafe`,
`generate_mfa_token`) is modelled by passing the drawn values as parameters.
Strings are Lean `String`s; character lists (`List Char`) carry the parsing.
-/

/-- Characters stripped by CPython's `int(str)` conversion: the ASCII
whitespace its number parser skips (tab, LF, VT, FF, CR, space) together
with the non-ASCII code points its decimal transform maps to a space
(U+0085, U+00A0, U+1680, U+2000-U+200A, U+2028, U+2029, U+202F, U+205F,
U+3000).  Other control characters such as U+001C-U+001F are NOT stripped
by `int()`. -/
def isPySpace (c : Char) : Bool :=
  let n := c.toNat
  n == 0x09 || n == 0x0A || n == 0x0B || n == 0x0C || n == 0x0D || n == 0x20 ||
  n == 0x85 || n == 0xA0 || n == 0x1680 ||
  (0x2000 ≤ n && n ≤ 0x200A) ||
  n == 0x2028 || n == 0x2029 || n == 0x202F || n == 0x205F || n == 0x3000

/-- Decimal value of a character under CPython's `int()`: ASCII digits
and every Unicode decimal digit (category Nd, Unicode 14.0 as shipped
with CPython 3.11's `Py_UNICODE_TODECIMAL`), each decade listed by the
code point of its zero digit.  `none` for every other character. -/
def pyDigitVal (c : Char) : Option Nat :=
  let n := c.toNat
  if 0x30 ≤ n && n ≤ 0x39 then some (n - 0x30)
    else if 0x660 ≤ n && n ≤ 0x669 then some (n - 0x660)
    else if 0x6f0 ≤ n && n ≤ 0x6f9 then some (n - 0x6f0)
    else if 0x7c0 ≤ n && n ≤ 0x7c9 then some (n - 0x7c0)
    else if 0x966 ≤ n && n ≤ 0x96f then some (n - 0x966)
    else if 0x9e6 ≤ n && n ≤ 0x9ef then some (n - 0x9e6)
    else if 0xa66 ≤ n && n ≤ 0xa6f then some (n - 0xa66)
    else if 0xae6 ≤ n && n ≤ 0xaef then some (n - 0xae6)
    else if 0xb66 ≤ n && n ≤ 0xb6f then some (n - 0xb66)
    else if 0xbe6 ≤ n && n ≤ 0xbef then some (n - 0xbe6)
    else if 0xc66 ≤ n && n ≤ 0xc6f then some (n - 0xc66)
    else if 0xce6 ≤ n && n ≤ 0xcef then some (n - 0xce6)
    else if 0xd66 ≤ n && n ≤ 0xd6f then some (n - 0xd66)
    else if 0xde6 ≤ n && n ≤ 0xdef then some (n - 0xde6)
    else if 0xe50 ≤ n && n ≤ 0xe59 then some (n - 0xe50)
    else if 0xed0 ≤ n && n ≤ 0xed9 then some (n - 0xed0)
    else if 0xf20 ≤ n && n ≤ 0xf29 then some (n - 0xf20)
    else if 0x1040 ≤ n && n ≤ 0x1049 then some (n - 0x1040)
    else if 0x1090 ≤ n && n ≤ 0x1099 then some (n - 0x1090)
    else if 0x17e0 ≤ n && n ≤ 0x17e9 then some (n - 0x17e0)
    else if 0x1810 ≤ n && n ≤ 0x1819 then some (n - 0x1810)
    else if 0x1946 ≤ n && n ≤ 0x194f then some (n - 0x1946)
    else if 0x19d0 ≤ n && n ≤ 0x19d9 then some (n - 0x19d0)
    else if 0x1a80 ≤ n && n ≤ 0x1a89 then some (n - 0x1a80)
    else if 0x1a90 ≤ n && n ≤ 0x1a99 then some (n - 0x1a90)
    else if 0x1b50 ≤ n && n ≤ 0x1b59 then some (n - 0x1b50)
    else if 0x1bb0 ≤ n && n ≤ 0x1bb9 then some (n - 0x1bb0)
    else if 0x1c40 ≤ n && n ≤ 0x1c49 then some (n - 0x1c40)
    else if 0x1c50 ≤ n && n ≤ 0x1c59 then some (n - 0x1c50)
    else if 0xa620 ≤ n && n ≤ 0xa629 then some (n - 0xa620)
    else if 0xa8d0 ≤ n && n ≤ 0xa8d9 then some (n - 0xa8d0)
    else if 0xa900 ≤ n && n ≤ 0xa909 then some (n - 0xa900)
    else if 0xa9d0 ≤ n && n ≤ 0xa9d9 then some (n - 0xa9d0)
    else if 0xa9f0 ≤ n && n ≤ 0xa9f9 then some (n - 0xa9f0)
    else if 0xaa50 ≤ n && n ≤ 0xaa59 then some (n - 0xaa50)
    else if 0xabf0 ≤ n && n ≤ 0xabf9 then some (n - 0xabf0)
    else if 0xff10 ≤ n && n ≤ 0xff19 then some (n - 0xff10)
    else if 0x104a0 ≤ n && n ≤ 0x104a9 then some (n - 0x104a0)
    else if 0x10d30 ≤ n && n ≤ 0x10d39 then some (n - 0x10d30)
    else if 0x11066 ≤ n && n ≤ 0x1106f then some (n - 0x11066)
    else if 0x110f0 ≤ n && n ≤ 0x110f9 then some (n - 0x110f0)
    else if 0x11136 ≤ n && n ≤ 0x1113f then some (n - 0x11136)
    else if 0x111d0 ≤ n && n ≤ 0x111d9 then some (n - 0x111d0)
    else if 0x112f0 ≤ n && n ≤ 0x112f9 then some (n - 0x112f0)
    else if 0x11450 ≤ n && n ≤ 0x11459 then some (n - 0x11450)
    else if 0x114d0 ≤ n && n ≤ 0x114d9 then some (n - 0x114d0)
    else if 0x11650 ≤ n && n ≤ 0x11659 then some (n - 0x11650)
    else if 0x116c0 ≤ n && n ≤ 0x116c9 then some (n - 0x116c0)
    else if 0x11730 ≤ n && n ≤ 0x11739 then some (n - 0x11730)
    else if 0x118e0 ≤ n && n ≤ 0x118e9 then some (n - 0x118e0)
    else if 0x11950 ≤ n && n ≤ 0x11959 then some (n - 0x11950)
    else if 0x11c50 ≤ n && n ≤ 0x11c59 then some (n - 0x11c50)
    else if 0x11d50 ≤ n && n ≤ 0x11d59 then some (n - 0x11d50)
    else if 0x11da0 ≤ n && n ≤ 0x11da9 then some (n - 0x11da0)
    else if 0x16a60 ≤ n && n ≤ 0x16a69 then some (n - 0x16a60)
    else if 0x16ac0 ≤ n && n ≤ 0x16ac9 then some (n - 0x16ac0)
    else if 0x16b50 ≤ n && n ≤ 0x16b59 then some (n - 0x16b50)
    else if 0x1d7ce ≤ n && n ≤ 0x1d7d7 then some (n - 0x1d7ce)
    else if 0x1d7d8 ≤ n && n ≤ 0x1d7e1 then some (n - 0x1d7d8)
    else if 0x1d7e2 ≤ n && n ≤ 0x1d7eb then some (n - 0x1d7e2)
    else if 0x1d7ec ≤ n && n ≤ 0x1d7f5 then some (n - 0x1d7ec)
    else if 0x1d7f6 ≤ n && n ≤ 0x1d7ff then some (n - 0x1d7f6)
    else if 0x1e140 ≤ n && n ≤ 0x1e149 then some (n - 0x1e140)
    else if 0x1e2f0 ≤ n && n ≤ 0x1e2f9 then some (n - 0x1e2f0)
    else if 0x1e950 ≤ n && n ≤ 0x1e959 then some (n - 0x1e950)
    else if 0x1fbf0 ≤ n && n ≤ 0x1fbf9 then some (n - 0x1fbf0)
  else none

/-- A character `int()` accepts as a digit. -/
def pyIsDigit (c : Char) : Bool := (pyDigitVal c).isSome

/-- Digit-run parser for Python `int()`: after the first digit, digits may be
separated by single underscores (an underscore must be followed by a digit).
The Boolean flag records whether an underscore is pending. -/
def pyDigitsA : Bool → Nat → List Char → Option Nat
  | false, acc, [] => some acc
  | true, _, [] => none
  | under, acc, c :: cs =>
    match pyDigitVal c with
    | some d => pyDigitsA false (10 * acc + d) cs
    | none => if c == '_' && !under then pyDigitsA true acc cs else none

/-- Parse a nonempty digit run (first character must be a digit). -/
def pyDigits : List Char → Option Nat
  | [] => none
  | c :: cs =>
    match pyDigitVal c with
    | some d => pyDigitsA false d cs
    | none => none

/-- Strip leading and trailing Python whitespace. -/
def pyStrip (s : List Char) : List Char :=
  ((s.dropWhile isPySpace).reverse.dropWhile isPySpace).reverse

/-- Models CPython's built-in `int(s)` in base 10: optional surrounding
whitespace (`isPySpace`), an optional ASCII `+`/`-` sign, then a nonempty
run of decimal digits (`pyDigitVal`, ASCII or Unicode) with optional
single underscores between digits.  `none` models a raised
`ValueError`. -/
def pyInt (s : List Char) : Option Int :=
  match pyStrip s with
  | [] => none
  | c :: r =>
    if c == '+' then
      match pyDigits r with
      | some m => some (m : Int)
      | none => none
    else if c == '-' then
      match pyDigits r with
      | some m => some (-(m : Int))
      | none => none
    else
      match pyDigits (c :: r) with
      | some m => some (m : Int)
      | none => none

/-- Well-placed signs: every `+` or `-` in the string is immediately
followed by a digit.  Every string accepted by `pyInt` satisfies this, and
it rules out any occurrence of the `" + "` separator inside the string. -/
def signOk : List Char → Bool
  | [] => true
  | c :: cs =>
    (if c == '+' || c == '-' then
      match cs with
      | d :: _ => pyIsDigit d
      | [] => false
     else true) && signOk cs

/-- The separator `" + "` used by `verify_math_answer`. -/
def sepChars : List Char := [' ', '+', ' ']

/-- Models Python's `str.startswith`: `leadsWith p s` is true when `p` is
an initial segment of `s`. -/
def leadsWith : List Char → List Char → Bool
  | [], _ => true
  | _ :: _, [] => false
  | p :: ps, c :: cs => p == c && leadsWith ps cs

/-- First-occurrence splitter: `splitOnce sep s = some (a, b)` when `s`
decomposes as `a ++ sep ++ b` at the leftmost occurrence of `sep`;
`none` when `sep` does not occur in `s`. -/
def splitOnce (sep : List Char) : List Char → Option (List Char × List Char)
  | [] => none
  | c :: cs =>
    if leadsWith sep (c :: cs) then some ([], (c :: cs).drop sep.length)
    else
      match splitOnce sep cs with
      | none => none
      | some (a, b) => some (c :: a, b)

/-- Models `" + " in math_part` (Python substring membership). -/
def containsSep (s : List Char) : Bool := (splitOnce sepChars s).isSome

/-- Accumulator worker for `splitOnSep` (Python `str.split(" + ")`); the
separator `" + "` is matched against the head of the remaining input.
When the separator matches, its three characters are consumed (the inner
match's fall-through is unreachable: a matching three-character separator
forces the tail to have at least two elements). -/
def splitOnSepAux : List Char → List Char → List (List Char)
  | acc, [] => [acc.reverse]
  | acc, c :: cs =>
    if leadsWith sepChars (c :: cs) then
      match cs with
      | _ :: _ :: rest => acc.reverse :: splitOnSepAux [] rest
      | _ => []
    else splitOnSepAux (c :: acc) cs

/-- Models Python's `math_part.split(" + ")`: splits at every
(left-to-right, non-overlapping) occurrence of `" + "`. -/
def splitOnSep (s : List Char) : List (List Char) := splitOnSepAux [] s

/-- The fixed question stem `"What is "`. -/
def qStem : List Char := "What is ".data

/-- Configured bounds of `MathCaptchaService` (`self.min_num`, `self.max_num`). -/
def min_num : Nat := 1

/-- Upper bound of the random operand range. -/
def max_num : Nat := 20

/-- Embeds `MathCaptchaService.generate_math_question`; the two
`random.randint(1, 20)` draws are passed in as `num1`, `num2`. -/
def generate_math_question (num1 num2 : Nat) : String × Int :=
  ("What is " ++ toString num1 ++ " + " ++ toString num2 ++ "?",
   (num1 : Int) + (num2 : Int))

/-- Embeds `MathCaptchaService.verify_math_answer`: checks the
`"What is "` stem and `"?"` suffix, slices `question[8:-1]`, requires the
`" + "` separator, splits on it into exactly two parts, converts both with
`int()`, and compares the provided answer with the recomputed sum.  Every
parse failure yields `false` (the Python `ValueError` is caught). -/
def verify_math_answer (question : String) (provided_answer : Int) : Bool :=
  let q := question.data
  if !(leadsWith qStem q) || !(q.getLast? == some '?') then false
  else
    let math_part := (q.drop 8).dropLast
    if !(containsSep math_part) then false
    else
      match splitOnSep math_part with
      | [p1, p2] =>
        match pyInt p1, pyInt p2 with
        | some n1, some n2 => provided_answer == n1 + n2
        | _, _ => false
      | _ => false

/-- Verification session record stored in the module-level
`verification_sessions` dictionary by `request_email_verification`. -/
structure VSession where
  email : String
  mfa_token : String
  expires_at : Int
  verified : Bool
  client_ip : String
  attempts : Nat
deriving DecidableEq

/-- Authenticated session record stored in the module-level `sessions`
dictionary by `SessionService.create_session`. -/
structure SessionData where
  email : String
  client_ip : String
  created_at : Int
  expires_at : Int
  last_activity : Int
deriving DecidableEq

/-- A string-keyed in-memory dictionary. -/
abbrev StrMap (α : Type) : Type := String → Option α

/-- Dictionary insertion/overwrite (`d[k] = v`). -/
def mapSet {α : Type} (m : StrMap α) (k : String) (v : α) : StrMap α :=
  fun k' => if k' = k then some v else m k'

/-- Dictionary deletion (`del d[k]`). -/
def mapDel {α : Type} (m : StrMap α) (k : String) : StrMap α :=
  fun k' => if k' = k then none else m k'

/-- Combined mutable state of the auth routes: the module-level
`verification_sessions` and `sessions` dictionaries. -/
structure AppState where
  verification_sessions : StrMap VSession
  sessions : StrMap SessionData

/-- Error kinds raised by the auth route handlers, one per
`HTTPException` site. -/
inductive AuthError where
  | Unauthorized
  | CaptchaFailed
  | EmailMismatch
  | DeliveryFailed
  | NotFound
  | Expired
  | TooManyAttempts
deriving DecidableEq

/-- HTTP status code of each error (the `status.HTTP_*` constants used at
the corresponding raise site). -/
def statusCode : AuthError → Nat
  | .Unauthorized => 401
  | .CaptchaFailed => 400
  | .EmailMismatch => 400
  | .DeliveryFailed => 500
  | .NotFound => 404
  | .Expired => 410
  | .TooManyAttempts => 429

/-- The `detail` string of each raised `HTTPException`. -/
def errorDetail : AuthError → String
  | .Unauthorized => "Valid client certificate required"
  | .CaptchaFailed => "Security verification failed. Please try again."
  | .EmailMismatch => "Email confirmation does not match"
  | .DeliveryFailed => "Failed to send verification email"
  | .NotFound => "Verification session not found"
  | .Expired => "Verification session has expired"
  | .TooManyAttempts => "Too many verification attempts"

/-- Response model of `request_email_verification`. -/
structure EmailVerificationResponse where
  verification_id : String
  message : String
  expires_at : Int
deriving DecidableEq

/-- Response model of `verify_mfa_token`. -/
structure MFATokenResponse where
  verified : Bool
  message : String
  session_token : Option String
deriving DecidableEq

/-- Config default `token_expiration_minutes` (`ApplicationSettings`). -/
def mfa_token_expiry_minutes : Int := 15

/-- `SessionService.session_timeout` (2 hours), in seconds. -/
def session_timeout : Int := 2 * 60 * 60

/-- Embeds `SessionService.create_session`: inserts a fresh record with
`created_at = last_activity = now` and `expires_at = now + session_timeout`,
returning the record and the updated `sessions` dictionary. -/
def create_session (sessions : StrMap SessionData)
    (session_token email client_ip : String) (now : Int) :
    SessionData × StrMap SessionData :=
  let session_data : SessionData :=
    { email := email, client_ip := client_ip, created_at := now,
      expires_at := now + session_timeout, last_activity := now }
  (session_data, mapSet sessions session_token session_data)

/-- Embeds `SessionService.invalidate_session`: deletes the token if
present and reports whether it existed. -/
def invalidate_session (sessions : StrMap SessionData)
    (session_token : String) : Bool × StrMap SessionData :=
  match sessions session_token with
  | some _ => (true, mapDel sessions session_token)
  | none => (false, sessions)

/-- Embeds `SessionService.get_session`: not-found yields `none`; an
expired record is invalidated and yields `none`; otherwise only
`last_activity` is refreshed and the record is returned. -/
def get_session (sessions : StrMap SessionData) (session_token : String)
    (now : Int) : Option SessionData × StrMap SessionData :=
  match sessions session_token with
  | none => (none, sessions)
  | some session =>
    if now > session.expires_at then
      (none, (invalidate_session sessions session_token).2)
    else
      let s1 := { session with last_activity := now }
      (some s1, mapSet sessions session_token s1)

/-- Embeds `SessionService.extend_session`: if the token is present
(no expiry check), resets `expires_at = now + session_timeout`, refreshes
`last_activity` and returns `true`; otherwise returns `false`. -/
def extend_session (sessions : StrMap SessionData) (session_token : String)
    (now : Int) : Bool × StrMap SessionData :=
  match sessions session_token with
  | some session =>
    (true, mapSet sessions session_token
      { session with expires_at := now + session_timeout, last_activity := now })
  | none => (false, sessions)

/-- Embeds the `request_email_verification` route handler.  The certificate
check outcome, the client IP, the generated verification id and MFA token,
and the success of the `EmailService.send_mfa_token` call are passed as
parameters.  Note the handler checks the CAPTCHA before the email/confirm
comparison, and stores the verification session before attempting
delivery. -/
def request_email_verification (st : AppState)
    (email email_confirm math_question : String) (math_answer : Int)
    (certOk : Bool) (client_ip : String) (now : Int)
    (new_verification_id new_mfa_token : String) (deliveryOk : Bool) :
    Except AuthError EmailVerificationResponse × AppState :=
  if !certOk then (.error .Unauthorized, st)
  else if !(verify_math_answer math_question math_answer) then
    (.error .CaptchaFailed, st)
  else if email != email_confirm then (.error .EmailMismatch, st)
  else
    let expires_at := now + mfa_token_expiry_minutes * 60
    let vs : VSession :=
      { email := email, mfa_token := new_mfa_token, expires_at := expires_at,
        verified := false, client_ip := client_ip, attempts := 0 }
    let st1 : AppState :=
      { st with verification_sessions :=
          mapSet st.verification_sessions new_verification_id vs }
    if !deliveryOk then (.error .DeliveryFailed, st1)
    else
      (.ok { verification_id := new_verification_id,
             message := "Verification code sent to " ++ email,
             expires_at := expires_at }, st1)

/-- Embeds the `verify_mfa_token` route handler: look up the verification
session (404 if absent), evict on expiry (410), increment `attempts` and
evict when the incremented counter exceeds 5 (429), answer
`verified = false` on a wrong code (keeping the incremented counter), and
on a correct code mark the session verified and mint an authenticated
session via `create_session`. -/
def verify_mfa_token (st : AppState) (verification_id token : String)
    (certOk : Bool) (client_ip : String) (now : Int)
    (new_session_token : String) :
    Except AuthError MFATokenResponse × AppState :=
  if !certOk then (.error .Unauthorized, st)
  else
    match st.verification_sessions verification_id with
    | none => (.error .NotFound, st)
    | some session =>
      if now > session.expires_at then
        (.error .Expired,
         { st with verification_sessions :=
             mapDel st.verification_sessions verification_id })
      else
        let s1 := { session with attempts := session.attempts + 1 }
        if s1.attempts > 5 then
          (.error .TooManyAttempts,
           { st with verification_sessions :=
               mapDel st.verification_sessions verification_id })
        else if token != session.mfa_token then
          (.ok { verified := false, message := "Invalid verification code",
                 session_token := none },
           { st with verification_sessions :=
               mapSet st.verification_sessions verification_id s1 })
        else
          let s2 := { s1 with verified := true }
          let cs := create_session st.sessions new_session_token
            session.email client_ip now
          (.ok { verified := true, message := "Email verification successful",
                 session_token := some new_session_token },
           { verification_sessions :=
               mapSet st.verification_sessions verification_id s2,
             sessions := cs.2 })

/-- One-entry dictionary, used to build concrete states in witnesses. -/
def singletonMap {α : Type} (k : String) (v : α) : StrMap α :=
  fun k' => if k' = k then some v else none

example : verify_math_answer "What is 5 + 7?" 12 = true := by decide
example : verify_math_answer "What is 5 + 7?" 11 = false := by decide
example : verify_math_answer "5 + 7" 12 = false := by decide
example : verify_math_answer "What is 5 - 7?" (-2) = false := by decide
example : verify_math_answer "What is 1 + 2 + 3?" 6 = false := by decide
example : verify_math_answer "What is  +3 + 4?" 7 = true := by decide
example : verify_math_answer "What is \u0661 + \u0662?" 3 = true := by decide
example : verify_math_answer "What is \uFF11 + \uFF12?" 3 = true := by decide
example : verify_math_answer "What is \u00A05 + 7?" 12 = true := by decide
example : pyInt ("\u0661\u0662" : String).data = some 12 := by decide
example : pyInt ("\u00A05" : String).data = some 5 := by decide
example : pyInt ("\u001C5" : String).data = none := by decide

theorem mapSet_same {α : Type} (m : StrMap α) (k : String) (v : α) :
    mapSet m k v k = some v := by simp [mapSet]

theorem mapSet_other {α : Type} (m : StrMap α) (k : String) (v : α)
    (k' : String) (h : k' ≠ k) : mapSet m k v k' = m k' := by simp [mapSet, h]

theorem mapDel_same {α : Type} (m : StrMap α) (k : String) :
    mapDel m k k = none := by simp [mapDel]

theorem mapDel_other {α : Type} (m : StrMap α) (k : String)
    (k' : String) (h : k' ≠ k) : mapDel m k k' = m k' := by simp [mapDel, h]

/-- C9: for a stored, unexpired session, `get_session` returns the record
with only `last_activity` refreshed, stores exactly that record back
(email, client IP, creation and expiry timestamps unchanged — in
particular `expires_at` is not advanced), while the separate
`extend_session` operation is the one that advances `expires_at`. -/
theorem get_session_touch_only (sessions : StrMap SessionData)
    (tok : String) (now : Int) (s : SessionData)
    (hs : sessions tok = some s) (hexp : ¬ now > s.expires_at) :
    get_session sessions tok now =
      (some { s with last_activity := now },
       mapSet sessions tok { s with last_activity := now }) ∧
    ({ s with last_activity := now } : SessionData).email = s.email ∧
    ({ s with last_activity := now } : SessionData).client_ip = s.client_ip ∧
    ({ s with last_activity := now } : SessionData).created_at = s.created_at ∧
    ({ s with last_activity := now } : SessionData).expires_at = s.expires_at ∧
    (extend_session sessions tok now).2 tok =
      some { s with expires_at := now + session_timeout, last_activity := now } := by
  refine ⟨by simp [get_session, hs, hexp], rfl, rfl, rfl, rfl, ?_⟩
  simp [extend_session, hs, mapSet_same]

/-- C9 witness: a concrete store with one live session, read at time 10. -/
theorem get_session_touch_only_witness :
    ((fun k => if k = "tok" then some (⟨"a@x.com", "1.2.3.4", 0, 7200, 0⟩ : SessionData)
       else none) : StrMap SessionData) "tok" =
      some (⟨"a@x.com", "1.2.3.4", 0, 7200, 0⟩ : SessionData) ∧
    ¬ (10 : Int) > (7200 : Int) ∧
    (get_session
        (fun k => if k = "tok" then some (⟨"a@x.com", "1.2.3.4", 0, 7200, 0⟩ : SessionData)
         else none) "tok" 10 =
      (some ⟨"a@x.com", "1.2.3.4", 0, 7200, 10⟩,
       mapSet
        (fun k => if k = "tok" then some (⟨"a@x.com", "1.2.3.4", 0, 7200, 0⟩ : SessionData)
         else none) "tok" ⟨"a@x.com", "1.2.3.4", 0, 7200, 10⟩) ∧
      ("a@x.com" : String) = "a@x.com" ∧ ("1.2.3.4" : String) = "1.2.3.4" ∧
      (0 : Int) = 0 ∧ (7200 : Int) = 7200 ∧
      (extend_session
        (fun k => if k = "tok" then some (⟨"a@x.com", "1.2.3.4", 0, 7200, 0⟩ : SessionData)
         else none) "tok" 10).2 "tok" =
        some ⟨"a@x.com", "1.2.3.4", 0, 10 + session_timeout, 10⟩) := by
  refine ⟨by decide, by decide, ?_⟩
  exact get_session_touch_only
    (fun k => if k = "tok" then some (⟨"a@x.com", "1.2.3.4", 0, 7200, 0⟩ : SessionData)
     else none) "tok" 10 ⟨"a@x.com", "1.2.3.4", 0, 7200, 0⟩ (by decide) (by decide)

/-- C10: `extend_session` performs no expiry check — any stored token
(expired or not) is extended to `now + session_timeout` with a refreshed
`last_activity`, the call returns `true`, and an immediately following
`get_session` on the same token succeeds with the resurrected record. -/
theorem extend_session_no_expiry_check (sessions : StrMap SessionData)
    (tok : String) (now : Int) (s : SessionData) (hs : sessions tok = some s) :
    extend_session sessions tok now =
      (true, mapSet sessions tok
        { s with expires_at := now + session_timeout, last_activity := now }) ∧
    (get_session (extend_session sessions tok now).2 tok now).1 =
      some { s with expires_at := now + session_timeout, last_activity := now } := by
  have hlt : ¬ now > now + session_timeout := by simp only [session_timeout]; omega
  constructor
  · simp [extend_session, hs]
  · simp [extend_session, hs, get_session, mapSet_same, hlt]

/-- C10 witness: a session already expired at read time (`expires_at = 5`,
`now = 100`) is still extended, and readable right after. -/
theorem extend_session_no_expiry_check_witness :
    ((fun k => if k = "tok" then some (⟨"a@x.com", "1.2.3.4", 0, 5, 0⟩ : SessionData)
       else none) : StrMap SessionData) "tok" =
      some (⟨"a@x.com", "1.2.3.4", 0, 5, 0⟩ : SessionData) ∧
    (100 : Int) > (5 : Int) ∧
    (extend_session
        (fun k => if k = "tok" then some (⟨"a@x.com", "1.2.3.4", 0, 5, 0⟩ : SessionData)
         else none) "tok" 100 =
      (true, mapSet
        (fun k => if k = "tok" then some (⟨"a@x.com", "1.2.3.4", 0, 5, 0⟩ : SessionData)
         else none) "tok" ⟨"a@x.com", "1.2.3.4", 0, 100 + session_timeout, 100⟩) ∧
     (get_session
        (extend_session
          (fun k => if k = "tok" then some (⟨"a@x.com", "1.2.3.4", 0, 5, 0⟩ : SessionData)
           else none) "tok" 100).2 "tok" 100).1 =
       some ⟨"a@x.com", "1.2.3.4", 0, 100 + session_timeout, 100⟩) := by
  refine ⟨by decide, by decide, ?_⟩
  exact extend_session_no_expiry_check
    (fun k => if k = "tok" then some (⟨"a@x.com", "1.2.3.4", 0, 5, 0⟩ : SessionData)
     else none) "tok" 100 ⟨"a@x.com", "1.2.3.4", 0, 5, 0⟩ (by decide)

theorem verify_mfa_lookup_none (st : AppState) (vid tok ip : String)
    (now : Int) (nt : String) (h : st.verification_sessions vid = none) :
    verify_mfa_token st vid tok true ip now nt = (.error .NotFound, st) := by
  simp [verify_mfa_token, h]

theorem verify_mfa_expired (st : AppState) (vid tok ip : String) (now : Int)
    (nt : String) (s : VSession) (hs : st.verification_sessions vid = some s)
    (hexp : now > s.expires_at) :
    verify_mfa_token st vid tok true ip now nt =
      (.error .Expired, ⟨mapDel st.verification_sessions vid, st.sessions⟩) := by
  simp [verify_mfa_token, hs, hexp]

theorem verify_mfa_toomany (st : AppState) (vid tok ip : String) (now : Int)
    (nt : String) (s : VSession) (hs : st.verification_sessions vid = some s)
    (hexp : ¬ now > s.expires_at) (hlim : s.attempts + 1 > 5) :
    verify_mfa_token st vid tok true ip now nt =
      (.error .TooManyAttempts,
       ⟨mapDel st.verification_sessions vid, st.sessions⟩) := by
  simp [verify_mfa_token, hs, hexp, hlim]

theorem verify_mfa_wrong (st : AppState) (vid tok ip : String) (now : Int)
    (nt : String) (s : VSession) (hs : st.verification_sessions vid = some s)
    (hexp : ¬ now > s.expires_at) (hlim : ¬ s.attempts + 1 > 5)
    (htok : tok ≠ s.mfa_token) :
    verify_mfa_token st vid tok true ip now nt =
      (.ok ⟨false, "Invalid verification code", none⟩,
       ⟨mapSet st.verification_sessions vid { s with attempts := s.attempts + 1 },
        st.sessions⟩) := by
  simp [verify_mfa_token, hs, hexp, hlim, htok]

theorem verify_mfa_right (st : AppState) (vid tok ip : String) (now : Int)
    (nt : String) (s : VSession) (hs : st.verification_sessions vid = some s)
    (hexp : ¬ now > s.expires_at) (hlim : ¬ s.attempts + 1 > 5)
    (htok : tok = s.mfa_token) :
    verify_mfa_token st vid tok true ip now nt =
      (.ok ⟨true, "Email verification successful", some nt⟩,
       ⟨mapSet st.verification_sessions vid
          ⟨s.email, s.mfa_token, s.expires_at, true, s.client_ip, s.attempts + 1⟩,
        mapSet st.sessions nt ⟨s.email, ip, now, now + session_timeout, now⟩⟩) := by
  simp [verify_mfa_token, hs, hexp, hlim, htok, create_session]

/-- C4: reading an expired verification session evicts it and reports
`Expired` (410); every subsequent lookup of the same id reports
`NotFound` (404). -/
theorem verify_expired_evicts (st : AppState) (vid tok ip : String)
    (now : Int) (nt : String) (s : VSession)
    (hs : st.verification_sessions vid = some s) (hexp : now > s.expires_at) :
    verify_mfa_token st vid tok true ip now nt =
      (.error .Expired, ⟨mapDel st.verification_sessions vid, st.sessions⟩) ∧
    statusCode .Expired = 410 ∧
    ((verify_mfa_token st vid tok true ip now nt).2).verification_sessions vid = none ∧
    (∀ tok2 ip2 now2 nt2,
      (verify_mfa_token (verify_mfa_token st vid tok true ip now nt).2
        vid tok2 true ip2 now2 nt2).1 = .error .NotFound) ∧
    statusCode .NotFound = 404 := by
  have h1 := verify_mfa_expired st vid tok ip now nt s hs hexp
  refine ⟨h1, rfl, ?_, ?_, rfl⟩
  · rw [h1]; exact mapDel_same _ _
  · intro tok2 ip2 now2 nt2
    rw [h1]
    rw [verify_mfa_lookup_none _ vid tok2 ip2 now2 nt2 (mapDel_same _ _)]

/-- C4 witness: a session that expired at time 100 is read at time 200. -/
theorem verify_expired_evicts_witness :
    (AppState.mk (singletonMap "vid" ⟨"a@x.com", "123456", 100, false, "ip", 0⟩)
        (fun _ => none)).verification_sessions "vid" =
      some ⟨"a@x.com", "123456", 100, false, "ip", 0⟩ ∧
    (200 : Int) > (100 : Int) ∧
    (verify_mfa_token
        ⟨singletonMap "vid" ⟨"a@x.com", "123456", 100, false, "ip", 0⟩, fun _ => none⟩
        "vid" "123456" true "ip" 200 "nt").1 = .error .Expired ∧
    ((verify_mfa_token
        ⟨singletonMap "vid" ⟨"a@x.com", "123456", 100, false, "ip", 0⟩, fun _ => none⟩
        "vid" "123456" true "ip" 200 "nt").2).verification_sessions "vid" = none ∧
    (verify_mfa_token
      (verify_mfa_token
        ⟨singletonMap "vid" ⟨"a@x.com", "123456", 100, false, "ip", 0⟩, fun _ => none⟩
        "vid" "123456" true "ip" 200 "nt").2
      "vid" "123456" true "ip" 201 "nt2").1 = .error .NotFound := by
  have H := verify_expired_evicts
    ⟨singletonMap "vid" ⟨"a@x.com", "123456", 100, false, "ip", 0⟩, fun _ => none⟩
    "vid" "123456" "ip" 200 "nt" ⟨"a@x.com", "123456", 100, false, "ip", 0⟩
    (by decide) (by decide)
  exact ⟨by decide, by decide, by rw [H.1], H.2.2.1, H.2.2.2.1 "123456" "ip" 201 "nt2"⟩

theorem verify_wrong_iterate (st : AppState) (vid tok ip : String)
    (now : Int) (nt : String) (s : VSession)
    (hs : st.verification_sessions vid = some s)
    (hexp : ¬ now > s.expires_at) (htok : tok ≠ s.mfa_token) :
    ∀ k : Nat, s.attempts + k ≤ 5 →
      (((fun σ : AppState => (verify_mfa_token σ vid tok true ip now nt).2)^[k])
          st).verification_sessions vid = some { s with attempts := s.attempts + k } := by
  intro k
  induction k with
  | zero => intro _; simpa using hs
  | succ n ih =>
    intro hk
    have ihn := ih (by omega)
    rw [Function.iterate_succ_apply']
    rw [verify_mfa_wrong _ vid tok ip now nt { s with attempts := s.attempts + n }
      ihn hexp (by simp; omega) htok]
    simp [mapSet_same]
    omega

/-- C1: a live, unexpired verification session has its `attempts` counter
incremented before the limit check on every `verify_mfa_token` call.  Any
record still stored after a call carries `attempts + 1`; within the budget
a wrong code answers `verified = false` and keeps the (incremented)
session; once the incremented counter exceeds 5 the call — code right or
wrong — evicts the session with `TooManyAttempts` (429), and later lookups
report `NotFound`.  Starting from a fresh session, five wrong-code calls
leave it stored with `attempts = 5`, and the sixth call (any code) yields
`TooManyAttempts`. -/
theorem verify_attempt_counting (st : AppState) (vid tok ip : String)
    (now : Int) (nt : String) (s : VSession)
    (hs : st.verification_sessions vid = some s)
    (hexp : ¬ now > s.expires_at) :
    (∀ s', ((verify_mfa_token st vid tok true ip now nt).2).verification_sessions vid =
        some s' → s'.attempts = s.attempts + 1) ∧
    (s.attempts + 1 ≤ 5 → tok ≠ s.mfa_token →
      (verify_mfa_token st vid tok true ip now nt).1 =
        .ok ⟨false, "Invalid verification code", none⟩ ∧
      ((verify_mfa_token st vid tok true ip now nt).2).verification_sessions vid =
        some { s with attempts := s.attempts + 1 }) ∧
    (s.attempts + 1 > 5 →
      (verify_mfa_token st vid tok true ip now nt).1 = .error .TooManyAttempts ∧
      statusCode .TooManyAttempts = 429 ∧
      ((verify_mfa_token st vid tok true ip now nt).2).verification_sessions vid = none ∧
      ∀ tok2 ip2 now2 nt2,
        (verify_mfa_token (verify_mfa_token st vid tok true ip now nt).2
          vid tok2 true ip2 now2 nt2).1 = .error .NotFound) ∧
    (s.attempts = 0 → tok ≠ s.mfa_token →
      (((fun σ : AppState => (verify_mfa_token σ vid tok true ip now nt).2)^[5])
          st).verification_sessions vid = some { s with attempts := 5 } ∧
      ∀ tok6 nt6,
        (verify_mfa_token
          (((fun σ : AppState => (verify_mfa_token σ vid tok true ip now nt).2)^[5]) st)
          vid tok6 true ip now nt6).1 = .error .TooManyAttempts) := by
  refine ⟨?_, ?_, ?_, ?_⟩
  · intro s' h'
    by_cases hlim : s.attempts + 1 > 5
    · rw [verify_mfa_toomany st vid tok ip now nt s hs hexp hlim] at h'
      simp [mapDel_same] at h'
    · by_cases htok : tok = s.mfa_token
      · rw [verify_mfa_right st vid tok ip now nt s hs hexp hlim htok] at h'
        simp [mapSet_same] at h'
        rw [← h']
      · rw [verify_mfa_wrong st vid tok ip now nt s hs hexp hlim htok] at h'
        simp [mapSet_same] at h'
        rw [← h']
  · intro hle htok
    rw [verify_mfa_wrong st vid tok ip now nt s hs hexp (by omega) htok]
    exact ⟨rfl, mapSet_same _ _ _⟩
  · intro hgt
    have h1 := verify_mfa_toomany st vid tok ip now nt s hs hexp hgt
    refine ⟨by rw [h1], rfl, by rw [h1]; exact mapDel_same _ _, ?_⟩
    intro tok2 ip2 now2 nt2
    rw [h1]
    rw [verify_mfa_lookup_none _ vid tok2 ip2 now2 nt2 (mapDel_same _ _)]
  · intro h0 htok
    have hiter := verify_wrong_iterate st vid tok ip now nt s hs hexp htok 5
      (by omega)
    constructor
    · rw [hiter]
      simp [h0]
    · intro tok6 nt6
      rw [verify_mfa_toomany _ vid tok6 ip now nt6 { s with attempts := s.attempts + 5 }
        hiter hexp (by show s.attempts + 5 + 1 > 5; omega)]

/-- C1 witness: five wrong codes keep the session (attempts = 5); the sixth
call with the CORRECT code still yields `TooManyAttempts`. -/
theorem verify_attempt_counting_witness :
    (AppState.mk (singletonMap "vid" ⟨"a@x.com", "123456", 1000, false, "ip", 0⟩)
        (fun _ => none)).verification_sessions "vid" =
      some ⟨"a@x.com", "123456", 1000, false, "ip", 0⟩ ∧
    ¬ (10 : Int) > (1000 : Int) ∧
    ("000000" : String) ≠ "123456" ∧
    (((fun σ : AppState => (verify_mfa_token σ "vid" "000000" true "ip" 10 "nt").2)^[5])
        ⟨singletonMap "vid" ⟨"a@x.com", "123456", 1000, false, "ip", 0⟩, fun _ => none⟩
      ).verification_sessions "vid" =
      some ⟨"a@x.com", "123456", 1000, false, "ip", 5⟩ ∧
    (verify_mfa_token
      (((fun σ : AppState => (verify_mfa_token σ "vid" "000000" true "ip" 10 "nt").2)^[5])
        ⟨singletonMap "vid" ⟨"a@x.com", "123456", 1000, false, "ip", 0⟩, fun _ => none⟩)
      "vid" "123456" true "ip" 10 "nt6").1 = .error .TooManyAttempts := by
  have H := verify_attempt_counting
    ⟨singletonMap "vid" ⟨"a@x.com", "123456", 1000, false, "ip", 0⟩, fun _ => none⟩
    "vid" "000000" "ip" 10 "nt" ⟨"a@x.com", "123456", 1000, false, "ip", 0⟩
    (by decide) (by decide)
  have H4 := H.2.2.2 rfl (by decide)
  exact ⟨by decide, by decide, by decide, H4.1, H4.2 "123456" "nt6"⟩

/-- C3: presenting the stored code to a live, unexpired session within the
attempt budget marks it verified, answers `verified = true` with the
freshly minted non-empty session token, and creates an authenticated
session bound to the verified email that an immediate `get_session`
returns. -/
theorem verify_success_creates_session (st : AppState) (vid tok ip : String)
    (now : Int) (nt : String) (s : VSession)
    (hs : st.verification_sessions vid = some s)
    (hexp : ¬ now > s.expires_at) (hlim : s.attempts + 1 ≤ 5)
    (htok : tok = s.mfa_token) (hnt : nt ≠ "") :
    (verify_mfa_token st vid tok true ip now nt).1 =
      .ok ⟨true, "Email verification successful", some nt⟩ ∧
    nt ≠ "" ∧
    ((verify_mfa_token st vid tok true ip now nt).2).verification_sessions vid =
      some ⟨s.email, s.mfa_token, s.expires_at, true, s.client_ip, s.attempts + 1⟩ ∧
    ((verify_mfa_token st vid tok true ip now nt).2).sessions nt =
      some ⟨s.email, ip, now, now + session_timeout, now⟩ ∧
    (get_session ((verify_mfa_token st vid tok true ip now nt).2).sessions nt now).1 =
      some ⟨s.email, ip, now, now + session_timeout, now⟩ := by
  have hlt : ¬ now > now + session_timeout := by simp only [session_timeout]; omega
  have H := verify_mfa_right st vid tok ip now nt s hs hexp (by omega) htok
  rw [H]
  refine ⟨rfl, hnt, mapSet_same _ _ _, mapSet_same _ _ _, ?_⟩
  simp [get_session, mapSet_same, hlt]

/-- C3 witness: correct code "123456" on a fresh live session at time 10. -/
theorem verify_success_creates_session_witness :
    (AppState.mk (singletonMap "vid" ⟨"a@x.com", "123456", 1000, false, "ip", 0⟩)
        (fun _ => none)).verification_sessions "vid" =
      some ⟨"a@x.com", "123456", 1000, false, "ip", 0⟩ ∧
    ¬ (10 : Int) > (1000 : Int) ∧
    (0 : Nat) + 1 ≤ 5 ∧
    ("123456" : String) = "123456" ∧ ("tok1" : String) ≠ "" ∧
    ((verify_mfa_token
        ⟨singletonMap "vid" ⟨"a@x.com", "123456", 1000, false, "ip", 0⟩, fun _ => none⟩
        "vid" "123456" true "ip" 10 "tok1").1 =
      .ok ⟨true, "Email verification successful", some "tok1"⟩ ∧
     ((verify_mfa_token
        ⟨singletonMap "vid" ⟨"a@x.com", "123456", 1000, false, "ip", 0⟩, fun _ => none⟩
        "vid" "123456" true "ip" 10 "tok1").2).verification_sessions "vid" =
      some ⟨"a@x.com", "123456", 1000, true, "ip", 1⟩ ∧
     (get_session ((verify_mfa_token
        ⟨singletonMap "vid" ⟨"a@x.com", "123456", 1000, false, "ip", 0⟩, fun _ => none⟩
        "vid" "123456" true "ip" 10 "tok1").2).sessions "tok1" 10).1 =
      some ⟨"a@x.com", "ip", 10, 10 + session_timeout, 10⟩) := by
  have H := verify_success_creates_session
    ⟨singletonMap "vid" ⟨"a@x.com", "123456", 1000, false, "ip", 0⟩, fun _ => none⟩
    "vid" "123456" "ip" 10 "tok1" ⟨"a@x.com", "123456", 1000, false, "ip", 0⟩
    (by decide) (by decide) (by decide) rfl (by decide)
  exact ⟨by decide, by decide, by decide, rfl, by decide, H.1, H.2.2.1, H.2.2.2.2⟩

/-- C8: a successful verification neither deletes nor locks the
verification session: a second call with the same correct code (still
unexpired, still within budget) succeeds again and mints a second,
distinct session token; both tokens resolve to sessions bound to the same
email. -/
theorem reverify_after_success (st : AppState) (vid tok ip : String)
    (now : Int) (nt1 nt2 : String) (s : VSession)
    (hs : st.verification_sessions vid = some s)
    (hexp : ¬ now > s.expires_at) (hlim : s.attempts + 2 ≤ 5)
    (htok : tok = s.mfa_token) (hne : nt2 ≠ nt1) :
    (verify_mfa_token st vid tok true ip now nt1).1 =
      .ok ⟨true, "Email verification successful", some nt1⟩ ∧
    (verify_mfa_token (verify_mfa_token st vid tok true ip now nt1).2
        vid tok true ip now nt2).1 =
      .ok ⟨true, "Email verification successful", some nt2⟩ ∧
    ((verify_mfa_token (verify_mfa_token st vid tok true ip now nt1).2
        vid tok true ip now nt2).2).sessions nt1 =
      some ⟨s.email, ip, now, now + session_timeout, now⟩ ∧
    ((verify_mfa_token (verify_mfa_token st vid tok true ip now nt1).2
        vid tok true ip now nt2).2).sessions nt2 =
      some ⟨s.email, ip, now, now + session_timeout, now⟩ := by
  have H1 := verify_mfa_right st vid tok ip now nt1 s hs hexp (by omega) htok
  rw [H1]
  have H2 := verify_mfa_right
    ⟨mapSet st.verification_sessions vid
        ⟨s.email, s.mfa_token, s.expires_at, true, s.client_ip, s.attempts + 1⟩,
      mapSet st.sessions nt1 ⟨s.email, ip, now, now + session_timeout, now⟩⟩
    vid tok ip now nt2
    ⟨s.email, s.mfa_token, s.expires_at, true, s.client_ip, s.attempts + 1⟩
    (mapSet_same _ _ _) hexp (by simp; omega) htok
  rw [H2]
  refine ⟨rfl, rfl, ?_, mapSet_same _ _ _⟩
  show mapSet
      (mapSet st.sessions nt1
        (⟨s.email, ip, now, now + session_timeout, now⟩ : SessionData))
      nt2 (⟨s.email, ip, now, now + session_timeout, now⟩ : SessionData) nt1 =
    some (⟨s.email, ip, now, now + session_timeout, now⟩ : SessionData)
  rw [mapSet_other _ _ _ _ (Ne.symm hne)]
  exact mapSet_same _ _ _

/-- C8 witness: the correct code presented twice, minting tokens "t1" and
"t2", both bound to the verified email. -/
theorem reverify_after_success_witness :
    (AppState.mk (singletonMap "vid" ⟨"a@x.com", "123456", 1000, false, "ip", 0⟩)
        (fun _ => none)).verification_sessions "vid" =
      some ⟨"a@x.com", "123456", 1000, false, "ip", 0⟩ ∧
    ¬ (10 : Int) > (1000 : Int) ∧ (0 : Nat) + 2 ≤ 5 ∧ ("t2" : String) ≠ "t1" ∧
    ((verify_mfa_token
        ⟨singletonMap "vid" ⟨"a@x.com", "123456", 1000, false, "ip", 0⟩, fun _ => none⟩
        "vid" "123456" true "ip" 10 "t1").1 =
      .ok ⟨true, "Email verification successful", some "t1"⟩ ∧
     (verify_mfa_token (verify_mfa_token
        ⟨singletonMap "vid" ⟨"a@x.com", "123456", 1000, false, "ip", 0⟩, fun _ => none⟩
        "vid" "123456" true "ip" 10 "t1").2 "vid" "123456" true "ip" 10 "t2").1 =
      .ok ⟨true, "Email verification successful", some "t2"⟩ ∧
     ((verify_mfa_token (verify_mfa_token
        ⟨singletonMap "vid" ⟨"a@x.com", "123456", 1000, false, "ip", 0⟩, fun _ => none⟩
        "vid" "123456" true "ip" 10 "t1").2 "vid" "123456" true "ip" 10 "t2").2).sessions "t1" =
      some ⟨"a@x.com", "ip", 10, 10 + session_timeout, 10⟩ ∧
     ((verify_mfa_token (verify_mfa_token
        ⟨singletonMap "vid" ⟨"a@x.com", "123456", 1000, false, "ip", 0⟩, fun _ => none⟩
        "vid" "123456" true "ip" 10 "t1").2 "vid" "123456" true "ip" 10 "t2").2).sessions "t2" =
      some ⟨"a@x.com", "ip", 10, 10 + session_timeout, 10⟩) := by
  have H := reverify_after_success
    ⟨singletonMap "vid" ⟨"a@x.com", "123456", 1000, false, "ip", 0⟩, fun _ => none⟩
    "vid" "123456" "ip" 10 "t1" "t2" ⟨"a@x.com", "123456", 1000, false, "ip", 0⟩
    (by decide) (by decide) (by decide) rfl (by decide)
  exact ⟨by decide, by decide, by decide, by decide, H.1, H.2.1, H.2.2.1, H.2.2.2⟩

/-- C2 counterexample: with mismatched emails AND a wrong challenge answer,
the handler fails with the CAPTCHA error (`"Security verification
failed. Please try again."`), not the email-mismatch `ValidationError` —
the CAPTCHA is checked first. -/
theorem captcha_checked_before_email_cex :
    ("a@x.com" : String) ≠ "b@x.com" ∧
    verify_math_answer "What is 1 + 2?" 4 = false ∧
    (request_email_verification ⟨fun _ => none, fun _ => none⟩ "a@x.com" "b@x.com"
        "What is 1 + 2?" 4 true "ip" 0 "vid" "123456" true).1 =
      Except.error AuthError.CaptchaFailed ∧
    AuthError.CaptchaFailed ≠ AuthError.EmailMismatch ∧
    errorDetail AuthError.CaptchaFailed ≠ errorDetail AuthError.EmailMismatch := by
  refine ⟨by decide, by decide, by rfl, by decide, by decide⟩

/-- C2 (amended): with `email ≠ email_confirm` the request always fails
with a 400 error and creates no verification session; the error is the
email-mismatch `ValidationError` when the challenge answer is correct,
and the CAPTCHA failure (checked first) when it is not. -/
theorem email_mismatch_rejected (st : AppState)
    (email email_confirm q : String) (a : Int) (ip : String) (now : Int)
    (vid mfa : String) (deliveryOk : Bool) (hne : email ≠ email_confirm) :
    (request_email_verification st email email_confirm q a true ip now
        vid mfa deliveryOk).1 =
      (if verify_math_answer q a = true then Except.error AuthError.EmailMismatch
       else Except.error AuthError.CaptchaFailed) ∧
    statusCode .EmailMismatch = 400 ∧ statusCode .CaptchaFailed = 400 ∧
    errorDetail .EmailMismatch = "Email confirmation does not match" ∧
    (request_email_verification st email email_confirm q a true ip now
        vid mfa deliveryOk).2 = st := by
  by_cases hcap : verify_math_answer q a = true
  · refine ⟨?_, rfl, rfl, rfl, ?_⟩ <;> simp [request_email_verification, hcap, hne]
  · refine ⟨?_, rfl, rfl, rfl, ?_⟩ <;> simp [request_email_verification, hcap, hne]

/-- C2 witness: mismatched emails with a correct challenge answer. -/
theorem email_mismatch_rejected_witness :
    ("a@x.com" : String) ≠ "b@x.com" ∧
    ((request_email_verification ⟨fun _ => none, fun _ => none⟩ "a@x.com" "b@x.com"
        "What is 1 + 2?" 3 true "ip" 0 "vid" "123456" true).1 =
      (if verify_math_answer "What is 1 + 2?" 3 = true
       then Except.error AuthError.EmailMismatch
       else Except.error AuthError.CaptchaFailed) ∧
     statusCode .EmailMismatch = 400 ∧ statusCode .CaptchaFailed = 400 ∧
     errorDetail .EmailMismatch = "Email confirmation does not match" ∧
     (request_email_verification ⟨fun _ => none, fun _ => none⟩ "a@x.com" "b@x.com"
        "What is 1 + 2?" 3 true "ip" 0 "vid" "123456" true).2 =
       (⟨fun _ => none, fun _ => none⟩ : AppState)) := by
  exact ⟨by decide, email_mismatch_rejected ⟨fun _ => none, fun _ => none⟩
    "a@x.com" "b@x.com" "What is 1 + 2?" 3 "ip" 0 "vid" "123456" true (by decide)⟩

/-- C7: when the CAPTCHA and email-match checks pass but email delivery
fails, the handler reports `DeliveryFailed` (500) yet the verification
session is already stored and is not rolled back: a later
`verify_mfa_token` on that id never reports `NotFound`. -/
theorem delivery_failure_keeps_session (st : AppState) (email q : String)
    (a : Int) (ip : String) (now : Int) (vid mfa : String)
    (hcap : verify_math_answer q a = true) :
    (request_email_verification st email email q a true ip now vid mfa false).1 =
      Except.error AuthError.DeliveryFailed ∧
    statusCode .DeliveryFailed = 500 ∧
    ((request_email_verification st email email q a true ip now
        vid mfa false).2).verification_sessions vid =
      some ⟨email, mfa, now + mfa_token_expiry_minutes * 60, false, ip, 0⟩ ∧
    ∀ tok2 ip2 now2 nt2,
      (verify_mfa_token
        (request_email_verification st email email q a true ip now vid mfa false).2
        vid tok2 true ip2 now2 nt2).1 ≠ Except.error AuthError.NotFound := by
  have hreq : request_email_verification st email email q a true ip now vid mfa false =
      (Except.error AuthError.DeliveryFailed,
       ⟨mapSet st.verification_sessions vid
          ⟨email, mfa, now + mfa_token_expiry_minutes * 60, false, ip, 0⟩,
        st.sessions⟩) := by
    simp [request_email_verification, hcap]
  rw [hreq]
  refine ⟨rfl, rfl, mapSet_same _ _ _, ?_⟩
  intro tok2 ip2 now2 nt2
  by_cases hexp2 : now2 >
      (⟨email, mfa, now + mfa_token_expiry_minutes * 60, false, ip, 0⟩ : VSession).expires_at
  · rw [verify_mfa_expired _ vid tok2 ip2 now2 nt2 _ (mapSet_same _ _ _) hexp2]
    simp
  · by_cases htok2 : tok2 = mfa
    · rw [verify_mfa_right _ vid tok2 ip2 now2 nt2 _ (mapSet_same _ _ _) hexp2
        (by show ¬ (0 : Nat) + 1 > 5; decide) htok2]
      simp
    · rw [verify_mfa_wrong _ vid tok2 ip2 now2 nt2 _ (mapSet_same _ _ _) hexp2
        (by show ¬ (0 : Nat) + 1 > 5; decide) htok2]
      simp

/-- C7 witness: delivery fails after a valid request; the stored session is
still found by a later verify call. -/
theorem delivery_failure_keeps_session_witness :
    verify_math_answer "What is 1 + 2?" 3 = true ∧
    (request_email_verification ⟨fun _ => none, fun _ => none⟩ "a@x.com" "a@x.com"
        "What is 1 + 2?" 3 true "ip" 0 "vid" "123456" false).1 =
      Except.error AuthError.DeliveryFailed ∧
    ((request_email_verification ⟨fun _ => none, fun _ => none⟩ "a@x.com" "a@x.com"
        "What is 1 + 2?" 3 true "ip" 0 "vid" "123456" false).2).verification_sessions "vid" =
      some ⟨"a@x.com", "123456", 0 + mfa_token_expiry_minutes * 60, false, "ip", 0⟩ ∧
    (verify_mfa_token
        (request_email_verification ⟨fun _ => none, fun _ => none⟩ "a@x.com" "a@x.com"
          "What is 1 + 2?" 3 true "ip" 0 "vid" "123456" false).2
        "vid" "000000" true "ip2" 1 "nt2").1 ≠ Except.error AuthError.NotFound := by
  have H := delivery_failure_keeps_session ⟨fun _ => none, fun _ => none⟩
    "a@x.com" "What is 1 + 2?" 3 "ip" 0 "vid" "123456" (by decide)
  exact ⟨by decide, H.1, H.2.2.1, H.2.2.2 "000000" "ip2" 1 "nt2"⟩

theorem bool_and_split {a b : Bool} (h : (a && b) = true) :
    a = true ∧ b = true := by
  cases a <;> cases b <;> simp_all

theorem bool_and_make {a b : Bool} (h1 : a = true) (h2 : b = true) :
    (a && b) = true := by
  cases a <;> cases b <;> simp_all

theorem signOk_cons (c : Char) (cs : List Char) :
    signOk (c :: cs) =
      ((if c == '+' || c == '-' then
          match cs with
          | d :: _ => pyIsDigit d
          | [] => false
        else true) && signOk cs) := rfl

theorem signOk_tail {c : Char} {cs : List Char} (h : signOk (c :: cs) = true) :
    signOk cs = true := by
  rw [signOk_cons] at h
  exact (bool_and_split h).2

theorem signOk_append {a b : List Char} (ha : signOk a = true)
    (hb : signOk b = true) : signOk (a ++ b) = true := by
  induction a with
  | nil => simpa using hb
  | cons c cs ih =>
    rw [List.cons_append, signOk_cons]
    rw [signOk_cons] at ha
    obtain ⟨h1, h2⟩ := bool_and_split ha
    refine bool_and_make ?_ (ih h2)
    by_cases hc : (c == '+' || c == '-') = true
    · rw [if_pos hc] at h1 ⊢
      cases cs with
      | nil => cases h1
      | cons d t => exact h1
    · rw [if_neg hc]

theorem signOk_of_no_sign {l : List Char}
    (h : ∀ c ∈ l, c ≠ '+' ∧ c ≠ '-') : signOk l = true := by
  induction l with
  | nil => rfl
  | cons c cs ih =>
    rw [signOk_cons]
    refine bool_and_make ?_ (ih (fun d hd => h d (List.mem_cons_of_mem _ hd)))
    obtain ⟨h1, h2⟩ := h c (List.mem_cons_self _ _)
    have hc : (c == '+' || c == '-') = false := by simp [h1, h2]
    rw [hc]
    rfl

theorem pyDigitsA_chars (l : List Char) : ∀ (u : Bool) (acc n : Nat),
    pyDigitsA u acc l = some n → ∀ c ∈ l, pyIsDigit c = true ∨ c = '_' := by
  induction l with
  | nil => intro u acc n _ c hc; cases hc
  | cons d t ih =>
    intro u acc n h c hc
    simp only [pyDigitsA] at h
    cases hd : pyDigitVal d with
    | some v =>
      rw [hd] at h
      rcases List.mem_cons.mp hc with rfl | hct
      · exact Or.inl (by simp [pyIsDigit, hd])
      · exact ih false _ n h c hct
    | none =>
      rw [hd] at h
      dsimp only at h
      by_cases hu : (d == '_' && !u) = true
      · rw [if_pos hu] at h
        rcases List.mem_cons.mp hc with rfl | hct
        · exact Or.inr (beq_iff_eq.mp (bool_and_split hu).1)
        · exact ih true acc n h c hct
      · rw [if_neg hu] at h
        cases h

theorem pyDigits_chars {l : List Char} {n : Nat} (h : pyDigits l = some n) :
    ∀ c ∈ l, pyIsDigit c = true ∨ c = '_' := by
  cases l with
  | nil => cases h
  | cons d t =>
    simp only [pyDigits] at h
    cases hd : pyDigitVal d with
    | some v =>
      rw [hd] at h
      intro c hc
      rcases List.mem_cons.mp hc with rfl | hct
      · exact Or.inl (by simp [pyIsDigit, hd])
      · exact pyDigitsA_chars t false v n h c hct
    | none =>
      rw [hd] at h
      cases h

theorem pyDigits_head {l : List Char} {n : Nat} (h : pyDigits l = some n) :
    ∃ d t, l = d :: t ∧ pyIsDigit d = true := by
  cases l with
  | nil => cases h
  | cons d t =>
    simp only [pyDigits] at h
    cases hd : pyDigitVal d with
    | some v => exact ⟨d, t, rfl, by simp [pyIsDigit, hd]⟩
    | none =>
      rw [hd] at h
      cases h

theorem pyStrip_decomp (s : List Char) :
    ∃ w1 w2, s = w1 ++ pyStrip s ++ w2 ∧
      (∀ c ∈ w1, isPySpace c = true) ∧ (∀ c ∈ w2, isPySpace c = true) := by
  refine ⟨s.takeWhile isPySpace,
          ((s.dropWhile isPySpace).reverse.takeWhile isPySpace).reverse, ?_, ?_, ?_⟩
  · conv_lhs => rw [← List.takeWhile_append_dropWhile isPySpace (l := s)]
    rw [List.append_assoc]
    congr 1
    conv_lhs => rw [← List.reverse_reverse (s.dropWhile isPySpace),
      ← List.takeWhile_append_dropWhile isPySpace (l := (s.dropWhile isPySpace).reverse)]
    rw [List.reverse_append]
    rfl
  · intro c hc; exact List.mem_takeWhile_imp hc
  · intro c hc
    rw [List.mem_reverse] at hc
    exact List.mem_takeWhile_imp hc

theorem isPySpace_not_sign {c : Char} (h : isPySpace c = true) :
    c ≠ '+' ∧ c ≠ '-' := by
  constructor <;> rintro rfl <;> exact absurd h (by decide)

theorem digit_or_underscore_not_sign {c : Char}
    (h : pyIsDigit c = true ∨ c = '_') : c ≠ '+' ∧ c ≠ '-' := by
  rcases h with h | rfl
  · constructor <;> rintro rfl <;> exact absurd h (by decide)
  · constructor <;> rintro h <;> cases h

theorem pyInt_signOk {s : List Char} {n : Int} (h : pyInt s = some n) :
    signOk s = true := by
  obtain ⟨w1, w2, hdecomp, hw1, hw2⟩ := pyStrip_decomp s
  have hmid : signOk (pyStrip s) = true := by
    cases hps : pyStrip s with
    | nil => rfl
    | cons c r =>
      simp only [pyInt, hps] at h
      by_cases hplus : (c == '+') = true
      · rw [if_pos hplus] at h
        cases hpd : pyDigits r with
        | none => rw [hpd] at h; cases h
        | some m =>
          obtain ⟨d, t, rfl, hd⟩ := pyDigits_head hpd
          rw [signOk_cons]
          refine bool_and_make ?_ ?_
          · rw [if_pos (by simp [hplus])]
            exact hd
          · exact signOk_of_no_sign
              (fun x hx => digit_or_underscore_not_sign (pyDigits_chars hpd x hx))
      · rw [if_neg hplus] at h
        by_cases hminus : (c == '-') = true
        · rw [if_pos hminus] at h
          cases hpd : pyDigits r with
          | none => rw [hpd] at h; cases h
          | some m =>
            obtain ⟨d, t, rfl, hd⟩ := pyDigits_head hpd
            rw [signOk_cons]
            refine bool_and_make ?_ ?_
            · rw [if_pos (by simp [hminus])]
              exact hd
            · exact signOk_of_no_sign
                (fun x hx => digit_or_underscore_not_sign (pyDigits_chars hpd x hx))
        · rw [if_neg hminus] at h
          cases hpd : pyDigits (c :: r) with
          | none => rw [hpd] at h; cases h
          | some m =>
            exact signOk_of_no_sign
              (fun x hx => digit_or_underscore_not_sign (pyDigits_chars hpd x hx))
  have hws : ∀ (w : List Char), (∀ c ∈ w, isPySpace c = true) → signOk w = true :=
    fun w hw => signOk_of_no_sign (fun c hc => isPySpace_not_sign (hw c hc))
  rw [hdecomp]
  exact signOk_append (signOk_append (hws w1 hw1) hmid) (hws w2 hw2)


theorem leadsWith_append_self (l t : List Char) :
    leadsWith l (l ++ t) = true := by
  induction l with
  | nil => rfl
  | cons c cs ih => simp [leadsWith, ih]

theorem leadsWith_eq_append {l s : List Char} (h : leadsWith l s = true) :
    s = l ++ s.drop l.length := by
  induction l generalizing s with
  | nil => simp
  | cons c cs ih =>
    cases s with
    | nil => cases h
    | cons d t =>
      simp only [leadsWith] at h
      obtain ⟨h1, h2⟩ := bool_and_split h
      rw [beq_iff_eq] at h1
      subst h1
      simp only [List.length_cons, List.drop_succ_cons, List.cons_append]
      exact congrArg (c :: ·) (ih h2)

theorem splitOnce_decomp {sep : List Char} :
    ∀ {s a b : List Char}, splitOnce sep s = some (a, b) → s = a ++ sep ++ b := by
  intro s
  induction s with
  | nil => intro a b h; cases h
  | cons c cs ih =>
    intro a b h
    by_cases hp : leadsWith sep (c :: cs) = true
    · simp only [splitOnce, if_pos hp] at h
      have h1 := Option.some.inj h
      have ha : a = [] := (congrArg Prod.fst h1).symm
      have hb : b = (c :: cs).drop sep.length := (congrArg Prod.snd h1).symm
      subst ha
      subst hb
      simpa using leadsWith_eq_append hp
    · simp only [splitOnce, if_neg hp] at h
      cases hsc : splitOnce sep cs with
      | none => rw [hsc] at h; cases h
      | some p =>
        obtain ⟨a', b'⟩ := p
        rw [hsc] at h
        have h1 := Option.some.inj h
        have ha : a = c :: a' := (congrArg Prod.fst h1).symm
        have hb : b = b' := (congrArg Prod.snd h1).symm
        subst ha
        subst hb
        have := ih hsc
        simp [this]

theorem signOk_no_sep {s : List Char} (h : signOk s = true) :
    splitOnce sepChars s = none := by
  induction s with
  | nil => rfl
  | cons c cs ih =>
    have hcs := signOk_tail h
    have hp : leadsWith sepChars (c :: cs) = false := by
      cases cs with
      | nil => simp [sepChars, leadsWith]
      | cons c2 cs2 =>
        cases cs2 with
        | nil => simp [sepChars, leadsWith]
        | cons c3 cs3 =>
          by_cases h2 : c2 = '+'
          · subst h2
            have hd : pyIsDigit c3 = true := by
              rw [signOk_cons] at hcs
              have := (bool_and_split hcs).1
              simpa using this
            have hc3 : (' ' == c3) = false := by
              cases hq : (' ' == c3)
              · rfl
              · rw [beq_iff_eq] at hq
                rw [← hq] at hd
                exact absurd hd (by decide)
            simp [sepChars, leadsWith, hc3]
          · have hne : ('+' == c2) = false := by
              cases hq : ('+' == c2)
              · rfl
              · rw [beq_iff_eq] at hq
                exact absurd hq.symm h2
            simp [sepChars, leadsWith, hne]
    have hstep : splitOnce sepChars (c :: cs) =
        match splitOnce sepChars cs with
        | none => none
        | some (a, b) => some (c :: a, b) := by
      simp only [splitOnce]
      rw [hp]
      rfl
    rw [hstep, ih hcs]

theorem splitOnce_sep_left {s1 : List Char} (s2 : List Char)
    (h1 : signOk s1 = true) :
    splitOnce sepChars (s1 ++ sepChars ++ s2) = some (s1, s2) := by
  induction s1 with
  | nil =>
    show splitOnce sepChars (' ' :: '+' :: ' ' :: s2) = some ([], s2)
    simp [splitOnce, sepChars, leadsWith]
  | cons c cs ih =>
    have hcs := signOk_tail h1
    have hp : leadsWith sepChars (c :: (cs ++ sepChars ++ s2)) = false := by
      cases cs with
      | nil =>
        show leadsWith sepChars (c :: ' ' :: '+' :: ' ' :: s2) = false
        simp [sepChars, leadsWith]
      | cons c2 cs2 =>
        by_cases h2 : c2 = '+'
        · subst h2
          cases cs2 with
          | nil => exact absurd hcs (by decide)
          | cons c3 cs3 =>
            have hd : pyIsDigit c3 = true := by
              rw [signOk_cons] at hcs
              have := (bool_and_split hcs).1
              simpa using this
            have hc3 : (' ' == c3) = false := by
              cases hq : (' ' == c3)
              · rfl
              · rw [beq_iff_eq] at hq
                rw [← hq] at hd
                exact absurd hd (by decide)
            show leadsWith sepChars (c :: '+' :: c3 :: (cs3 ++ sepChars ++ s2)) = false
            simp [sepChars, leadsWith, hc3]
        · have hne : ('+' == c2) = false := by
            cases hq : ('+' == c2)
            · rfl
            · rw [beq_iff_eq] at hq
              exact absurd hq.symm h2
          show leadsWith sepChars (c :: c2 :: (cs2 ++ sepChars ++ s2)) = false
          simp [sepChars, leadsWith, hne]
    have hstep : splitOnce sepChars (c :: (cs ++ sepChars ++ s2)) =
        match splitOnce sepChars (cs ++ sepChars ++ s2) with
        | none => none
        | some (a, b) => some (c :: a, b) := by
      simp only [splitOnce]
      rw [hp]
      rfl
    show splitOnce sepChars (c :: (cs ++ sepChars ++ s2)) = some (c :: cs, s2)
    rw [hstep, ih hcs]

theorem sep_leadsWith_shape {c : Char} {cs : List Char}
    (h : leadsWith sepChars (c :: cs) = true) :
    c = ' ' ∧ ∃ rest, cs = '+' :: ' ' :: rest := by
  cases cs with
  | nil => simp [sepChars, leadsWith] at h
  | cons c2 cs2 =>
    cases cs2 with
    | nil => simp [sepChars, leadsWith] at h
    | cons c3 cs3 =>
      simp [sepChars, leadsWith] at h
      obtain ⟨hc, hc2, hc3⟩ := h
      exact ⟨hc.symm, cs3, by rw [← hc2, ← hc3]⟩

theorem splitOnSepAux_sep_step (acc : List Char) {c : Char} {cs : List Char}
    (hp : leadsWith sepChars (c :: cs) = true) :
    splitOnSepAux acc (c :: cs) =
      acc.reverse :: splitOnSepAux [] ((c :: cs).drop 3) := by
  obtain ⟨rfl, rest, rfl⟩ := sep_leadsWith_shape hp
  simp [splitOnSepAux, hp]

theorem splitOnSepAux_skip (acc : List Char) {c : Char} {cs : List Char}
    (hp : leadsWith sepChars (c :: cs) = false) :
    splitOnSepAux acc (c :: cs) = splitOnSepAux (c :: acc) cs := by
  rw [splitOnSepAux.eq_def]
  dsimp only
  rw [hp]
  rfl

theorem splitOnSepAux_of_none {s : List Char} (h : splitOnce sepChars s = none) :
    ∀ acc, splitOnSepAux acc s = [acc.reverse ++ s] := by
  induction s with
  | nil => intro acc; simp [splitOnSepAux]
  | cons c cs ih =>
    intro acc
    by_cases hp : leadsWith sepChars (c :: cs) = true
    · simp only [splitOnce, if_pos hp] at h
      cases h
    · have hp' : leadsWith sepChars (c :: cs) = false := by
        revert hp; cases leadsWith sepChars (c :: cs) <;> simp
      have hcs : splitOnce sepChars cs = none := by
        simp only [splitOnce, if_neg hp] at h
        cases hsc : splitOnce sepChars cs with
        | none => rfl
        | some p => obtain ⟨a, b⟩ := p; rw [hsc] at h; cases h
      rw [splitOnSepAux_skip acc hp', ih hcs (c :: acc)]
      simp

theorem splitOnSepAux_of_some {s : List Char} :
    ∀ {a b : List Char}, splitOnce sepChars s = some (a, b) →
      ∀ acc, splitOnSepAux acc s = (acc.reverse ++ a) :: splitOnSepAux [] b := by
  induction s with
  | nil => intro a b h; cases h
  | cons c cs ih =>
    intro a b h acc
    by_cases hp : leadsWith sepChars (c :: cs) = true
    · simp only [splitOnce, if_pos hp] at h
      have h1 := Option.some.inj h
      have ha : a = [] := (congrArg Prod.fst h1).symm
      have hb : b = (c :: cs).drop sepChars.length := (congrArg Prod.snd h1).symm
      subst ha
      subst hb
      rw [splitOnSepAux_sep_step acc hp]
      simp [sepChars]
    · have hp' : leadsWith sepChars (c :: cs) = false := by
        revert hp; cases leadsWith sepChars (c :: cs) <;> simp
      simp only [splitOnce, if_neg hp] at h
      cases hsc : splitOnce sepChars cs with
      | none => rw [hsc] at h; cases h
      | some p =>
        obtain ⟨a', b'⟩ := p
        rw [hsc] at h
        have h1 := Option.some.inj h
        have ha : a = c :: a' := (congrArg Prod.fst h1).symm
        have hb : b = b' := (congrArg Prod.snd h1).symm
        subst ha
        subst hb
        rw [splitOnSepAux_skip acc hp', ih hsc (c :: acc)]
        simp

theorem splitOnSep_ne_nil (s acc : List Char) : splitOnSepAux acc s ≠ [] := by
  cases hsc : splitOnce sepChars s with
  | none => rw [splitOnSepAux_of_none hsc acc]; simp
  | some p =>
    obtain ⟨a, b⟩ := p
    rw [splitOnSepAux_of_some hsc acc]
    simp

theorem splitOnSep_pair {s p1 p2 : List Char} :
    splitOnSep s = [p1, p2] ↔
      splitOnce sepChars s = some (p1, p2) ∧ splitOnce sepChars p2 = none := by
  constructor
  · intro h
    cases hsc : splitOnce sepChars s with
    | none =>
      rw [splitOnSep, splitOnSepAux_of_none hsc []] at h
      simp at h
    | some p =>
      obtain ⟨a, b⟩ := p
      rw [splitOnSep, splitOnSepAux_of_some hsc []] at h
      simp only [List.reverse_nil, List.nil_append, List.cons.injEq] at h
      obtain ⟨ha, h2⟩ := h
      subst ha
      cases hsb : splitOnce sepChars b with
      | none =>
        rw [splitOnSepAux_of_none hsb []] at h2
        simp only [List.reverse_nil, List.nil_append, List.cons.injEq,
          and_true] at h2
        subst h2
        exact ⟨rfl, hsb⟩
      | some q =>
        obtain ⟨a2, b2⟩ := q
        rw [splitOnSepAux_of_some hsb []] at h2
        simp only [List.reverse_nil, List.nil_append, List.cons.injEq] at h2
        exact absurd h2.2 (splitOnSep_ne_nil b2 [])
  · rintro ⟨h1, h2⟩
    rw [splitOnSep, splitOnSepAux_of_some h1 [], splitOnSepAux_of_none h2 []]
    simp

theorem bool_or_false {a b : Bool} (h : ¬ (a || b) = true) :
    a = false ∧ b = false := by
  cases a <;> cases b <;> simp_all

theorem verify_math_answer_unfold (q : String) (a : Int) :
    verify_math_answer q a =
      if !(leadsWith qStem q.data) || !(q.data.getLast? == some '?') then false
      else if !(containsSep ((q.data.drop 8).dropLast)) then false
      else
        match splitOnSep ((q.data.drop 8).dropLast) with
        | [p1, p2] =>
          match pyInt p1, pyInt p2 with
          | some n1, some n2 => a == n1 + n2
          | _, _ => false
        | _ => false := rfl

theorem verify_math_answer_true_iff (q : String) (a : Int) :
    verify_math_answer q a = true ↔
      ∃ s1 s2 n1 n2, q.data = qStem ++ s1 ++ sepChars ++ s2 ++ ['?'] ∧
        pyInt s1 = some n1 ∧ pyInt s2 = some n2 ∧ a = n1 + n2 := by
  rw [verify_math_answer_unfold]
  constructor
  · intro h
    by_cases hb : (!(leadsWith qStem q.data) || !(q.data.getLast? == some '?')) = true
    · rw [if_pos hb] at h; cases h
    · rw [if_neg hb] at h
      obtain ⟨hA', hB'⟩ := bool_or_false hb
      have hA : leadsWith qStem q.data = true := by
        revert hA'; cases leadsWith qStem q.data <;> simp
      have hB : q.data.getLast? = some '?' := by
        have hb2 : (q.data.getLast? == some '?') = true := by
          revert hB'; cases q.data.getLast? == some '?' <;> simp
        exact beq_iff_eq.mp hb2
      by_cases hc : (!(containsSep ((q.data.drop 8).dropLast))) = true
      · rw [if_pos hc] at h; cases h
      · rw [if_neg hc] at h
        rcases hsp : splitOnSep ((q.data.drop 8).dropLast)
          with _ | ⟨p1, _ | ⟨p2, _ | ⟨p3, rest⟩⟩⟩
        · rw [hsp] at h; cases h
        · rw [hsp] at h; cases h
        · rw [hsp] at h
          dsimp only at h
          cases hn1 : pyInt p1 with
          | none => rw [hn1] at h; cases h
          | some n1 =>
            cases hn2 : pyInt p2 with
            | none => rw [hn1, hn2] at h; cases h
            | some n2 =>
              rw [hn1, hn2] at h
              have ha : a = n1 + n2 := beq_iff_eq.mp h
              obtain ⟨hs, _⟩ := splitOnSep_pair.mp hsp
              have hmp : (q.data.drop 8).dropLast = p1 ++ sepChars ++ p2 :=
                splitOnce_decomp hs
              have hq : q.data = qStem ++ q.data.drop 8 := by
                have h8 := leadsWith_eq_append hA
                rwa [show qStem.length = 8 from by decide] at h8
              have hRne : q.data.drop 8 ≠ [] := by
                intro h0
                rw [h0, List.append_nil] at hq
                rw [hq] at hB
                exact absurd hB (by decide)
              have hRlast : (q.data.drop 8).getLast? = some '?' := by
                rw [hq, List.getLast?_append] at hB
                cases hRl : (q.data.drop 8).getLast? with
                | none => exact absurd (List.getLast?_eq_none_iff.mp hRl) hRne
                | some x => rw [hRl] at hB; simpa using hB
              obtain ⟨zs, hzs⟩ := List.getLast?_eq_some_iff.mp hRlast
              have hmp2 : (q.data.drop 8).dropLast = zs := by
                rw [hzs]; exact List.dropLast_concat
              refine ⟨p1, p2, n1, n2, ?_, hn1, hn2, ha⟩
              rw [hq, hzs, ← hmp2, hmp]
              simp [List.append_assoc]
        · rw [hsp] at h; cases h
  · rintro ⟨s1, s2, n1, n2, hq, h1, h2, rfl⟩
    have hs1 := pyInt_signOk h1
    have hs2 := pyInt_signOk h2
    have hmp : (q.data.drop 8).dropLast = s1 ++ sepChars ++ s2 := by
      rw [hq]
      rw [show qStem ++ s1 ++ sepChars ++ s2 ++ ['?'] =
            qStem ++ (s1 ++ sepChars ++ s2 ++ ['?']) from by
          simp [List.append_assoc]]
      rw [List.drop_left' (show qStem.length = 8 from by decide)]
      rw [show s1 ++ sepChars ++ s2 ++ ['?'] = (s1 ++ sepChars ++ s2) ++ ['?'] from by
          simp [List.append_assoc]]
      exact List.dropLast_concat
    have hlead : leadsWith qStem q.data = true := by
      rw [hq]
      rw [show qStem ++ s1 ++ sepChars ++ s2 ++ ['?'] =
            qStem ++ (s1 ++ sepChars ++ s2 ++ ['?']) from by
          simp [List.append_assoc]]
      exact leadsWith_append_self _ _
    have hlast : q.data.getLast? = some '?' := by
      rw [hq]; exact List.getLast?_concat _
    have hsplit : splitOnce sepChars ((q.data.drop 8).dropLast) = some (s1, s2) := by
      rw [hmp]; exact splitOnce_sep_left s2 hs1
    have hpair : splitOnSep ((q.data.drop 8).dropLast) = [s1, s2] :=
      splitOnSep_pair.mpr ⟨hsplit, signOk_no_sep hs2⟩
    have hcont : containsSep ((q.data.drop 8).dropLast) = true := by
      rw [containsSep, hsplit]; rfl
    simp only [hlead, hlast, hcont, hpair, h1, h2]
    simp

theorem pyInt_toString_small (n : Nat) (h1 : 1 ≤ n) (h2 : n ≤ 20) :
    pyInt (toString n).data = some (n : Int) := by
  interval_cases n <;> decide

theorem generate_data_decomp (num1 num2 : Nat) :
    (generate_math_question num1 num2).1.data =
      qStem ++ (toString num1).data ++ sepChars ++ (toString num2).data ++ ['?'] := by
  show ("What is " ++ toString num1 ++ " + " ++ toString num2 ++ "?").data = _
  simp only [String.data_append]
  rfl

/-- C6: a generated challenge has the exact shape `"What is {a} + {b}?"`
with both operands in `[min_num, max_num] = [1, 20]` and answer `a + b`;
verifying the generated question with its answer succeeds, and with
`answer + 1` fails. -/
theorem generate_math_question_roundtrip (num1 num2 : Nat)
    (ha1 : min_num ≤ num1) (ha2 : num1 ≤ max_num)
    (hb1 : min_num ≤ num2) (hb2 : num2 ≤ max_num) :
    (generate_math_question num1 num2).1 =
      "What is " ++ toString num1 ++ " + " ++ toString num2 ++ "?" ∧
    (generate_math_question num1 num2).2 = (num1 : Int) + (num2 : Int) ∧
    verify_math_answer (generate_math_question num1 num2).1
      (generate_math_question num1 num2).2 = true ∧
    verify_math_answer (generate_math_question num1 num2).1
      ((generate_math_question num1 num2).2 + 1) = false := by
  have hd1 : pyInt (toString num1).data = some (num1 : Int) :=
    pyInt_toString_small num1 ha1 ha2
  have hd2 : pyInt (toString num2).data = some (num2 : Int) :=
    pyInt_toString_small num2 hb1 hb2
  have hq := generate_data_decomp num1 num2
  refine ⟨rfl, rfl, ?_, ?_⟩
  · exact (verify_math_answer_true_iff _ _).mpr
      ⟨(toString num1).data, (toString num2).data, num1, num2, hq, hd1, hd2, rfl⟩
  · cases hv : verify_math_answer (generate_math_question num1 num2).1
        ((generate_math_question num1 num2).2 + 1) with
    | false => rfl
    | true =>
      exfalso
      obtain ⟨s1', s2', n1', n2', hq', h1', h2', hsum⟩ :=
        (verify_math_answer_true_iff _ _).mp hv
      rw [hq] at hq'
      have hq2 : qStem ++ ((toString num1).data ++ (sepChars ++ ((toString num2).data ++ ['?']))) =
          qStem ++ (s1' ++ (sepChars ++ (s2' ++ ['?']))) := by
        simpa [List.append_assoc] using hq'
      have hcore := List.append_cancel_left hq2
      have h3 : ((toString num1).data ++ sepChars ++ (toString num2).data) ++ ['?'] =
          (s1' ++ sepChars ++ s2') ++ ['?'] := by
        simpa [List.append_assoc] using hcore
      have hx := List.append_cancel_right h3
      have u1 : splitOnce sepChars ((toString num1).data ++ sepChars ++ (toString num2).data) =
          some ((toString num1).data, (toString num2).data) :=
        splitOnce_sep_left _ (pyInt_signOk hd1)
      have u2 : splitOnce sepChars (s1' ++ sepChars ++ s2') = some (s1', s2') :=
        splitOnce_sep_left _ (pyInt_signOk h1')
      rw [hx, u2] at u1
      have hs1 : s1' = (toString num1).data :=
        congrArg Prod.fst (Option.some.inj u1)
      have hs2 : s2' = (toString num2).data :=
        congrArg Prod.snd (Option.some.inj u1)
      rw [hs1, hd1] at h1'
      rw [hs2, hd2] at h2'
      have e1 : n1' = (num1 : Int) := (Option.some.inj h1').symm
      have e2 : n2' = (num2 : Int) := (Option.some.inj h2').symm
      rw [e1, e2] at hsum
      have : (num1 : Int) + (num2 : Int) + 1 = (num1 : Int) + (num2 : Int) := hsum
      omega

/-- C6 witness: the spec's concrete scenario, operands 5 and 7. -/
theorem generate_math_question_roundtrip_witness :
    min_num ≤ 5 ∧ (5 : Nat) ≤ max_num ∧ min_num ≤ 7 ∧ (7 : Nat) ≤ max_num ∧
    ((generate_math_question 5 7).1 =
       "What is " ++ toString (5 : Nat) ++ " + " ++ toString (7 : Nat) ++ "?" ∧
     (generate_math_question 5 7).2 = ((5 : Nat) : Int) + ((7 : Nat) : Int) ∧
     verify_math_answer (generate_math_question 5 7).1
       (generate_math_question 5 7).2 = true ∧
     verify_math_answer (generate_math_question 5 7).1
       ((generate_math_question 5 7).2 + 1) = false) := by
  refine ⟨by decide, by decide, by decide, by decide, ?_⟩
  exact generate_math_question_roundtrip 5 7 (by decide) (by decide)
    (by decide) (by decide)
